import Mathlib

/-!
Shallow embedding of the `Logger` class of `src/Script.js` (BDWS-designer).

Modelling conventions:
* Machine state is a single `Sys` record holding the logger instance fields
  (`enabled`, `level`, `prefix` — renamed `tag` since `prefix` is a Lean
  keyword —, `logToConsole`, `logToStorage`, `maxLogs`, `logs`,
  `performanceMarks`) together with the observable host state: the
  `localStorage` value under the key `bdws_logs` and the console transcript.
* `localStorage` holds `JSON.stringify(this.logs)`; serialization of a list of
  entries is injective, so the stored string is represented by the entry list
  it encodes (`Option (List LogEntry)`, `none` = key absent).
* Host inputs consumed by a call (`new Date().toISOString()`,
  `navigator.userAgent`, `window.location.href`, and whether
  `localStorage.setItem` throws) are passed explicitly as an `Env` record;
  `performance.now()` readings are passed as an explicit `Int` argument
  (a clock reading; `0` is the JS-falsy reading).
* The free-form `data` payload is modelled as an opaque optional string
  (`null` = `none`); `data || ''` is JS-falsy choice on it.
* The `try { localStorage.setItem(...) } catch (e) { console.warn(...) }` block
  is modelled by `setItemResult` returning `Except` and `_log` handling both
  outcomes, so `_log` itself is total: no failure escapes to the caller.
-/

namespace BDWS

/-- One recorded log entry (the object literal built in `Logger._log`,
`src/Script.js` lines 20-27). -/
structure LogEntry where
  timestamp : String
  level : String
  message : String
  data : Option String
  userAgent : String
  url : String
deriving Repr, DecidableEq

/-- One line of console output: either a styled `console.log` line (line 49-54
of the source; the `%c`-directive is folded into the head text) or a
`console.warn` line (line 42). -/
inductive ConsoleLine where
  | styled (head : String) (style : String) (message : String) (dataArg : String)
  | warnLine (head : String) (err : String)
deriving Repr, DecidableEq

/-- Host-environment inputs consumed by one logging call. `storageError = some e`
means `localStorage.setItem` throws `e` during this call. -/
structure Env where
  timestamp : String
  userAgent : String
  url : String
  storageError : Option String
deriving Repr, DecidableEq

/-- Full machine state: the `Logger` instance fields plus the observable host
state (persisted `bdws_logs` value and console transcript). -/
structure Sys where
  enabled : Bool
  level : String
  tag : String
  logToConsole : Bool
  logToStorage : Bool
  maxLogs : Nat
  logs : List LogEntry
  performanceMarks : List (String × Int)
  storage : Option (List LogEntry)
  console : List ConsoleLine
deriving Repr, DecidableEq

/-- JS `a || b` for an optional number: `undefined` and `0` are falsy. -/
def jsOrNat (v : Option Nat) (dflt : Nat) : Nat :=
  match v with
  | none => dflt
  | some n => if n = 0 then dflt else n

/-- JS `a || b` for an optional string: `undefined` and `""` are falsy. -/
def jsOrStr (v : Option String) (dflt : String) : String :=
  match v with
  | none => dflt
  | some x => if x = "" then dflt else x

/-- JS truthiness of `this.performanceMarks[label]`: an absent key
(`undefined`) and a stored reading of `0` are both falsy. -/
def jsTruthyNum (v : Option Int) : Bool :=
  match v with
  | none => false
  | some n => n != 0

/-- Lookup in the `performanceMarks` object (read of
`this.performanceMarks[label]`). -/
def getMark : List (String × Int) → String → Option Int
  | [], _ => none
  | (k, v) :: rest, label => if k = label then some v else getMark rest label

/-- Assignment `this.performanceMarks[label] = t`: overwrite in place if the
key exists, otherwise append (object keys are unique in every reachable
state). -/
def setMark : List (String × Int) → String → Int → List (String × Int)
  | [], label, t => [(label, t)]
  | (k, v) :: rest, label, t =>
      if k = label then (k, t) :: rest else (k, v) :: setMark rest label t

/-- `delete this.performanceMarks[label]`: the key is gone afterwards. -/
def delMark (marks : List (String × Int)) (label : String) : List (String × Int) :=
  marks.filter fun p => p.1 ≠ label

/-- Options object passed to `new Logger(options)`; `none` = field absent. -/
structure Options where
  enabled : Option Bool := none
  level : Option String := none
  tag : Option String := none
  console : Option Bool := none
  storage : Option Bool := none
  maxLogs : Option Nat := none
deriving Repr, DecidableEq

namespace Logger

/-- `new Logger(options)` (`src/Script.js` lines 3-14), paired with the initial
host state (`storage0` is the pre-existing `bdws_logs` value, `console0` the
console transcript so far). -/
def mk (opts : Options) (storage0 : Option (List LogEntry)) (console0 : List ConsoleLine) : Sys :=
  { enabled := opts.enabled != some false
    level := jsOrStr opts.level "info"
    tag := jsOrStr opts.tag "[BDWS]"
    logToConsole := opts.console != some false
    logToStorage := opts.storage == some true
    maxLogs := jsOrNat opts.maxLogs 100
    logs := []
    performanceMarks := []
    storage := storage0
    console := console0 }

/-- The log-entry object literal of `_log` (lines 20-27). -/
def entryOf (env : Env) (level message : String) (data : Option String) : LogEntry :=
  { timestamp := env.timestamp
    level := level
    message := message
    data := data
    userAgent := env.userAgent
    url := env.url }

/-- `Logger._getLogStyle` (lines 58-67): `styles[level] || styles.info`. -/
def _getLogStyle (level : String) : String :=
  if level = "debug" then
    "background: #9E9E9E; color: white; padding: 2px 5px; border-radius: 3px;"
  else if level = "warn" then
    "background: #FF9800; color: white; padding: 2px 5px; border-radius: 3px;"
  else if level = "error" then
    "background: #F44336; color: white; padding: 2px 5px; border-radius: 3px;"
  else if level = "success" then
    "background: #4CAF50; color: white; padding: 2px 5px; border-radius: 3px;"
  else
    "background: #2196F3; color: white; padding: 2px 5px; border-radius: 3px;"

/-- Lines 30-35 of `_log`: `push` the new entry, then `shift` once if the
length now exceeds `maxLogs`. -/
def evict (cap : Nat) (l : List LogEntry) : List LogEntry :=
  if l.length > cap then l.drop 1 else l

/-- Outcome of `localStorage.setItem('bdws_logs', JSON.stringify(this.logs))`:
either the value now stored, or the thrown error. -/
def setItemResult (env : Env) (logs : List LogEntry) : Except String (List LogEntry) :=
  match env.storageError with
  | some e => Except.error e
  | none => Except.ok logs

/-- `Logger._log` (lines 17-56). The sequential mutations of the source are
written as one record update: `logs` gets push-then-conditional-shift
(`evict`); `storage` is overwritten on a successful `setItem` and untouched
when it throws (the `catch` emits a `console.warn` line instead); the console
transcript grows by the warning (if any) and then the styled output line (if
`logToConsole`). When `enabled` is false the call returns before doing
anything. -/
def _log (s : Sys) (env : Env) (level message : String) (data : Option String) : Sys :=
  if s.enabled = false then s
  else
    let newLogs := evict s.maxLogs (s.logs ++ [entryOf env level message data])
    { s with
      logs := newLogs
      storage :=
        if s.logToStorage then
          match setItemResult env newLogs with
          | Except.ok v => some v
          | Except.error _ => s.storage
        else s.storage
      console := s.console
        ++ (if s.logToStorage then
              match setItemResult env newLogs with
              | Except.ok _ => []
              | Except.error e => [ConsoleLine.warnLine "Failed to save logs to storage:" e]
            else [])
        ++ (if s.logToConsole then
              [ConsoleLine.styled (s.tag ++ " [" ++ level.toUpper ++ "]")
                (_getLogStyle level) message (jsOrStr data "")]
            else []) }

/-- `Logger.debug` (lines 70-72). -/
def debug (s : Sys) (env : Env) (message : String) (data : Option String) : Sys :=
  _log s env "debug" message data

/-- `Logger.info` (lines 74-76). -/
def info (s : Sys) (env : Env) (message : String) (data : Option String) : Sys :=
  _log s env "info" message data

/-- `Logger.warn` (lines 78-80). -/
def warn (s : Sys) (env : Env) (message : String) (data : Option String) : Sys :=
  _log s env "warn" message data

/-- `Logger.error` (lines 82-84). -/
def error (s : Sys) (env : Env) (message : String) (data : Option String) : Sys :=
  _log s env "error" message data

/-- `Logger.success` (lines 86-88). -/
def success (s : Sys) (env : Env) (message : String) (data : Option String) : Sys :=
  _log s env "success" message data

/-- `duration.toFixed(2)` for an integral clock difference. -/
def toFixed2 (n : Int) : String :=
  toString n ++ ".00"

/-- `Logger.startPerformance` (lines 91-94): store the clock reading under the
label, then log a debug entry. -/
def startPerformance (s : Sys) (env : Env) (now : Int) (label : String) : Sys :=
  debug { s with performanceMarks := setMark s.performanceMarks label now } env
    ("Performance tracking started: " ++ label) none

/-- `Logger.endPerformance` (lines 96-103): `if (this.performanceMarks[label])`
is a JS truthiness test on the stored reading. On the truthy branch it logs the
duration, deletes the mark and returns the duration; otherwise it does nothing
and returns `undefined` (`none`). -/
def endPerformance (s : Sys) (env : Env) (now : Int) (label : String) : Sys × Option Int :=
  if jsTruthyNum (getMark s.performanceMarks label) then
    let start := (getMark s.performanceMarks label).getD 0
    let duration := now - start
    let s1 := info s env
      ("Performance: " ++ label ++ " completed in " ++ toFixed2 duration ++ "ms") none
    ({ s1 with performanceMarks := delMark s1.performanceMarks label }, some duration)
  else (s, none)

/-- `Logger.getLogs` (lines 106-108). -/
def getLogs (s : Sys) : List LogEntry :=
  s.logs

/-- `Logger.clearLogs` (lines 111-117): empty the buffer, remove the persisted
key if mirroring is on, then log `info('Logs cleared')`. -/
def clearLogs (s : Sys) (env : Env) : Sys :=
  let s1 := { s with logs := ([] : List LogEntry) }
  let s2 := if s1.logToStorage then { s1 with storage := none } else s1
  info s2 env "Logs cleared" none

/-- `Logger.exportLogs` (lines 120-129): the blob/download machinery is a
platform boundary; its observable effect on the machine state is the trailing
`success` log. The exported document is the buffer at entry, returned as the
second component. -/
def exportLogs (s : Sys) (env : Env) : Sys × List LogEntry :=
  (success s env "Logs exported successfully" none, s.logs)

end Logger

/-- Which of the five public logging methods a call uses. -/
inductive Method where
  | debug
  | info
  | warn
  | error
  | success
deriving Repr, DecidableEq

/-- The level string each public method passes to `_log`. -/
def Method.levelName : Method → String
  | .debug => "debug"
  | .info => "info"
  | .warn => "warn"
  | .error => "error"
  | .success => "success"

/-- One call to a public logging method. -/
structure LogCall where
  method : Method
  env : Env
  message : String
  data : Option String
deriving Repr, DecidableEq

/-- Dispatch of one public logging call. -/
def callLog (s : Sys) (c : LogCall) : Sys :=
  match c.method with
  | .debug => Logger.debug s c.env c.message c.data
  | .info => Logger.info s c.env c.message c.data
  | .warn => Logger.warn s c.env c.message c.data
  | .error => Logger.error s c.env c.message c.data
  | .success => Logger.success s c.env c.message c.data

/-- Run a sequence of public logging calls. -/
def runLogs (s : Sys) (calls : List LogCall) : Sys :=
  calls.foldl callLog s

/-- The entry a public logging call appends (when the logger is enabled). -/
def callEntry (c : LogCall) : LogEntry :=
  Logger.entryOf c.env c.method.levelName c.message c.data

/-- One invocation of any public `Logger` operation. -/
inductive Op where
  | call (c : LogCall)
  | startPerf (env : Env) (now : Int) (label : String)
  | endPerf (env : Env) (now : Int) (label : String)
  | clear (env : Env)
  | doExport (env : Env)
deriving Repr, DecidableEq

/-- Apply one public operation to the state. -/
def applyOp (s : Sys) (op : Op) : Sys :=
  match op with
  | .call c => callLog s c
  | .startPerf env now label => Logger.startPerformance s env now label
  | .endPerf env now label => (Logger.endPerformance s env now label).1
  | .clear env => Logger.clearLogs s env
  | .doExport env => (Logger.exportLogs s env).1

/-- Run a sequence of public operations. -/
def runOps (s : Sys) (ops : List Op) : Sys :=
  ops.foldl applyOp s

/-- The suffix of length at most `n` of a list. -/
def lastN (n : Nat) (l : List α) : List α :=
  l.drop (l.length - n)

/-! ### Concrete fixtures used to instantiate the theorems -/

/-- A host environment with fixed timestamp/agent/location and a working store. -/
def envEx : Env :=
  { timestamp := "t0", userAgent := "ua", url := "u", storageError := none }

/-- The same environment but with a throwing `localStorage.setItem`. -/
def envFail : Env :=
  { envEx with storageError := some "QuotaExceededError" }

/-- `new Logger({ maxLogs: 3 })` over a fresh host. -/
def sEx1 : Sys :=
  Logger.mk { maxLogs := some 3 } none []

/-- The four `info` calls of the spec's ring-buffer example. -/
def callsEx1 : List LogCall :=
  [⟨Method.info, envEx, "a", none⟩, ⟨Method.info, envEx, "b", none⟩,
   ⟨Method.info, envEx, "c", none⟩, ⟨Method.info, envEx, "d", none⟩]

/-- `new Logger({ storage: true })` over a fresh host. -/
def s2Ex : Sys :=
  Logger.mk { storage := some true } none []

/-- `new Logger({})` over a fresh host. -/
def s4Ex : Sys :=
  Logger.mk {} none []

/-- `new Logger({ enabled: false })` over a fresh host. -/
def sDis : Sys :=
  Logger.mk { enabled := some false } none []

/-- `new Logger({ maxLogs: 2 })` options. -/
def opts7 : Options :=
  { maxLogs := some 2 }

/-- A mixed sequence of public operations. -/
def ops7 : List Op :=
  [Op.call ⟨Method.info, envEx, "a", none⟩, Op.call ⟨Method.warn, envEx, "b", none⟩,
   Op.call ⟨Method.error, envEx, "c", none⟩, Op.clear envEx,
   Op.startPerf envEx 1 "x", Op.endPerf envEx 2 "x", Op.doExport envEx]

/-- A logger whose buffer is exactly at capacity (`maxLogs = 2`, two entries). -/
def sFull : Sys :=
  { enabled := true, level := "info", tag := "[BDWS]", logToConsole := false,
    logToStorage := false, maxLogs := 2,
    logs := [Logger.entryOf envEx "info" "m1" none, Logger.entryOf envEx "info" "m2" none],
    performanceMarks := [], storage := none, console := [] }

/-! ### Basic lemmas about the embedding -/

namespace Logger

@[simp]
theorem _log_enabled (s : Sys) (env : Env) (lvl msg : String) (d : Option String) :
    (_log s env lvl msg d).enabled = s.enabled := by
  unfold _log; split <;> rfl

@[simp]
theorem _log_maxLogs (s : Sys) (env : Env) (lvl msg : String) (d : Option String) :
    (_log s env lvl msg d).maxLogs = s.maxLogs := by
  unfold _log; split <;> rfl

@[simp]
theorem _log_logToStorage (s : Sys) (env : Env) (lvl msg : String) (d : Option String) :
    (_log s env lvl msg d).logToStorage = s.logToStorage := by
  unfold _log; split <;> rfl

@[simp]
theorem _log_performanceMarks (s : Sys) (env : Env) (lvl msg : String) (d : Option String) :
    (_log s env lvl msg d).performanceMarks = s.performanceMarks := by
  unfold _log; split <;> rfl

theorem _log_of_disabled (s : Sys) (env : Env) (lvl msg : String) (d : Option String)
    (h : s.enabled = false) : _log s env lvl msg d = s := by
  unfold _log; rw [h]; rfl

theorem _log_logs_of_enabled (s : Sys) (env : Env) (lvl msg : String) (d : Option String)
    (h : s.enabled = true) :
    (_log s env lvl msg d).logs = evict s.maxLogs (s.logs ++ [entryOf env lvl msg d]) := by
  unfold _log; rw [h]; rfl

theorem callLog_eq (s : Sys) (c : LogCall) :
    callLog s c = _log s c.env c.method.levelName c.message c.data := by
  obtain ⟨m, env, msg, d⟩ := c
  cases m <;> rfl

theorem evict_length_le (cap : Nat) (l : List LogEntry) (e : LogEntry)
    (h : l.length ≤ cap) : (evict cap (l ++ [e])).length ≤ cap := by
  unfold evict
  split <;> simp_all

theorem lastN_of_length_le (n : Nat) (l : List α) (h : l.length ≤ n) :
    lastN n l = l := by
  unfold lastN
  have : l.length - n = 0 := by omega
  rw [this, List.drop_zero]

theorem evict_eq_lastN (cap : Nat) (l : List LogEntry) (e : LogEntry)
    (h : l.length ≤ cap) : evict cap (l ++ [e]) = lastN cap (l ++ [e]) := by
  unfold evict lastN
  rcases Nat.lt_or_ge l.length cap with hlt | hge
  · have h1 : ¬ (l ++ [e]).length > cap := by simp; omega
    have h2 : (l ++ [e]).length - cap = 0 := by simp; omega
    rw [if_neg h1, h2, List.drop_zero]
  · have hcap : l.length = cap := by omega
    have h1 : (l ++ [e]).length > cap := by simp; omega
    have h2 : (l ++ [e]).length - cap = 1 := by simp; omega
    rw [if_pos h1, h2]

theorem lastN_length_le (n : Nat) (l : List α) : (lastN n l).length ≤ n := by
  unfold lastN
  rw [List.length_drop]
  omega

theorem lastN_lastN_append (n : Nat) (a b : List α) :
    lastN n (lastN n a ++ b) = lastN n (a ++ b) := by
  rcases le_or_lt a.length n with h | h
  · rw [lastN_of_length_le n a h]
  · unfold lastN
    have hlen : (a.drop (a.length - n)).length = n := by
      rw [List.length_drop]; omega
    rw [List.drop_append_eq_append_drop, List.drop_append_eq_append_drop,
      List.drop_drop, hlen, List.length_append, List.length_append, hlen]
    have e1 : a.length - n + ((n + b.length) - n) = a.length + b.length - n := by omega
    have e2 : (n + b.length) - n - n = a.length + b.length - n - a.length := by omega
    rw [e1, e2]

theorem getMark_setMark_self (m : List (String × Int)) (label : String) (t : Int) :
    getMark (setMark m label t) label = some t := by
  induction m with
  | nil => simp [setMark, getMark]
  | cons p rest ih =>
    obtain ⟨k, v⟩ := p
    by_cases h : k = label
    · simp [setMark, getMark, h]
    · simp [setMark, getMark, h, ih]

theorem getMark_delMark_self (m : List (String × Int)) (label : String) :
    getMark (delMark m label) label = none := by
  induction m with
  | nil => rfl
  | cons p rest ih =>
    obtain ⟨k, v⟩ := p
    by_cases h : k = label
    · simpa [delMark, List.filter_cons, h] using ih
    · simpa [delMark, List.filter_cons, getMark, h] using ih

theorem startPerformance_marks (s : Sys) (env : Env) (now : Int) (label : String) :
    (startPerformance s env now label).performanceMarks = setMark s.performanceMarks label now := by
  unfold startPerformance debug
  rw [_log_performanceMarks]

theorem startPerformance_of_disabled (s : Sys) (env : Env) (now : Int) (label : String)
    (hen : s.enabled = false) :
    startPerformance s env now label =
      { s with performanceMarks := setMark s.performanceMarks label now } := by
  unfold startPerformance debug
  exact _log_of_disabled _ _ _ _ _ hen

theorem endPerformance_spec (s : Sys) (env : Env) (now : Int) (label : String) (t : Int)
    (hget : getMark s.performanceMarks label = some t) (ht : t ≠ 0) :
    endPerformance s env now label =
      ({ info s env
            ("Performance: " ++ label ++ " completed in " ++ toFixed2 (now - t) ++ "ms") none
          with performanceMarks := delMark s.performanceMarks label }, some (now - t)) := by
  have ht' : (t != 0) = true := by simpa using ht
  simp only [endPerformance, hget, jsTruthyNum, ht', if_true, Option.getD_some]
  simp [info, _log_performanceMarks]

theorem endPerformance_of_falsy (s : Sys) (env : Env) (now : Int) (label : String)
    (h : jsTruthyNum (getMark s.performanceMarks label) = false) :
    endPerformance s env now label = (s, none) := by
  simp only [endPerformance, h]
  rfl

theorem clearLogs_logs (s : Sys) (env : Env) :
    (clearLogs s env).logs =
      if s.enabled = true then evict s.maxLogs [entryOf env "info" "Logs cleared" none]
      else [] := by
  by_cases he : s.enabled = true <;> by_cases hst : s.logToStorage = true <;>
    simp_all [clearLogs, info, _log]

theorem clearLogs_storage (s : Sys) (env : Env) (hst : s.logToStorage = true)
    (hok : env.storageError = none) (hcap : 1 ≤ s.maxLogs) :
    (clearLogs s env).storage =
      if s.enabled = true then some [entryOf env "info" "Logs cleared" none] else none := by
  have hone : ¬ ((1 : Nat) > s.maxLogs) := by omega
  by_cases he : s.enabled = true <;>
    simp_all [clearLogs, info, _log, setItemResult, evict]

theorem _log_inv (s : Sys) (env : Env) (lvl msg : String) (d : Option String)
    (h : s.logs.length ≤ s.maxLogs) :
    (_log s env lvl msg d).logs.length ≤ s.maxLogs := by
  by_cases he : s.enabled = true
  · rw [_log_logs_of_enabled s env lvl msg d he]
    exact evict_length_le s.maxLogs s.logs (entryOf env lvl msg d) h
  · have he' : s.enabled = false := by simpa using he
    rw [_log_of_disabled s env lvl msg d he']
    exact h

theorem applyOp_maxLogs (s : Sys) (op : Op) : (applyOp s op).maxLogs = s.maxLogs := by
  cases op with
  | call c => rw [applyOp, callLog_eq]; exact _log_maxLogs _ _ _ _ _
  | startPerf env now label => simp [applyOp, startPerformance, debug]
  | endPerf env now label =>
    simp only [applyOp, endPerformance]
    split
    · simp [info]
    · rfl
  | clear env =>
    simp only [applyOp, clearLogs, info]
    rw [_log_maxLogs]
    split <;> rfl
  | doExport env => simp [applyOp, exportLogs, success]

theorem applyOp_inv (s : Sys) (op : Op) (h : s.logs.length ≤ s.maxLogs) :
    (applyOp s op).logs.length ≤ s.maxLogs := by
  cases op with
  | call c => rw [applyOp, callLog_eq]; exact _log_inv _ _ _ _ _ h
  | startPerf env now label =>
    exact _log_inv { s with performanceMarks := setMark s.performanceMarks label now }
      env "debug" ("Performance tracking started: " ++ label) none h
  | endPerf env now label =>
    simp only [applyOp, endPerformance]
    split
    · simpa using _log_inv s env "info" _ none h
    · exact h
  | clear env =>
    simp only [applyOp, clearLogs, info]
    split
    · exact _log_inv _ env "info" "Logs cleared" none (by simp)
    · exact _log_inv _ env "info" "Logs cleared" none (by simp)
  | doExport env =>
    exact _log_inv s env "success" "Logs exported successfully" none h

theorem runOps_inv (ops : List Op) : ∀ s : Sys, s.logs.length ≤ s.maxLogs →
    (runOps s ops).logs.length ≤ (runOps s ops).maxLogs ∧
      (runOps s ops).maxLogs = s.maxLogs := by
  induction ops with
  | nil => intro s h; exact ⟨h, rfl⟩
  | cons op rest ih =>
    intro s h
    have hstep : (applyOp s op).logs.length ≤ (applyOp s op).maxLogs := by
      rw [applyOp_maxLogs]; exact applyOp_inv s op h
    obtain ⟨h1, h2⟩ := ih (applyOp s op) hstep
    refine ⟨h1, ?_⟩
    show (runOps (applyOp s op) rest).maxLogs = s.maxLogs
    rw [h2, applyOp_maxLogs]

theorem runLogs_spec (calls : List LogCall) : ∀ s : Sys, s.enabled = true →
    s.logs.length ≤ s.maxLogs →
    (runLogs s calls).logs = lastN s.maxLogs (s.logs ++ calls.map callEntry) ∧
      (runLogs s calls).maxLogs = s.maxLogs := by
  induction calls with
  | nil =>
    intro s he h
    refine ⟨?_, rfl⟩
    simpa [runLogs] using (lastN_of_length_le s.maxLogs s.logs h).symm
  | cons c cs ih =>
    intro s he h
    have hlogs : (callLog s c).logs = evict s.maxLogs (s.logs ++ [callEntry c]) := by
      rw [callLog_eq]
      exact _log_logs_of_enabled s c.env c.method.levelName c.message c.data he
    have hen : (callLog s c).enabled = true := by
      rw [callLog_eq, _log_enabled]; exact he
    have hmax : (callLog s c).maxLogs = s.maxLogs := by
      rw [callLog_eq, _log_maxLogs]
    have hlen : (callLog s c).logs.length ≤ (callLog s c).maxLogs := by
      rw [hlogs, hmax]
      exact evict_length_le s.maxLogs s.logs (callEntry c) h
    obtain ⟨ih1, ih2⟩ := ih (callLog s c) hen hlen
    have hrun : runLogs s (c :: cs) = runLogs (callLog s c) cs := rfl
    constructor
    · rw [hrun, ih1, hmax, hlogs, evict_eq_lastN s.maxLogs s.logs (callEntry c) h,
        lastN_lastN_append]
      simp
    · rw [hrun, ih2, hmax]

end Logger

/-! ### The claims -/

/-- C1: for every Logger with capacity `maxLogs = C`, starting from an empty
buffer with `enabled = true`, any sequence of more than `C` logging calls
(debug/info/warn/error/success) leaves the buffer holding exactly the `C` most
recent entries in oldest-first order. -/
theorem c1_ring_buffer_retention (s : Sys) (calls : List LogCall)
    (hen : s.enabled = true) (hempty : s.logs = [])
    (_hlen : s.maxLogs < calls.length) :
    Logger.getLogs (runLogs s calls) =
      (calls.map callEntry).drop (calls.length - s.maxLogs) := by
  have h0 : s.logs.length ≤ s.maxLogs := by rw [hempty]; exact Nat.zero_le _
  obtain ⟨h1, _⟩ := Logger.runLogs_spec calls s hen h0
  simp only [Logger.getLogs]
  rw [h1, hempty]
  simp [lastN]

/-- C1 witness: `maxLogs = 3`, calls `info("a")..info("d")`, `getLogs()` holds
messages `["b","c","d"]` in that order. -/
theorem c1_witness :
    (Logger.getLogs (runLogs sEx1 callsEx1)).map LogEntry.message = ["b", "c", "d"] := by
  rw [c1_ring_buffer_retention sEx1 callsEx1 (by decide) rfl (by decide)]
  rfl

/-- C2 counterexample: with storage mirroring on (and the logger enabled, its
default), the persisted key is present again right after `clearLogs()` returns,
holding the serialized one-entry buffer — refuting the claim that the store no
longer contains the key. -/
theorem c2_counterexample :
    (Logger.clearLogs s2Ex envEx).storage =
        some [Logger.entryOf envEx "info" "Logs cleared" none] ∧
      ¬ (Logger.clearLogs s2Ex envEx).storage = none := by
  decide

/-- C2 (amended): `clearLogs()` removes the persisted key, but the trailing
`info('Logs cleared')` re-writes it when the logger is enabled (and the write
succeeds); the key is absent after `clearLogs()` exactly when the logger is
disabled. -/
theorem c2_clear_storage_amended (s : Sys) (env : Env) (hst : s.logToStorage = true)
    (hok : env.storageError = none) (hcap : 1 ≤ s.maxLogs) :
    (Logger.clearLogs s env).storage =
      if s.enabled = true then some [Logger.entryOf env "info" "Logs cleared" none]
      else none :=
  Logger.clearLogs_storage s env hst hok hcap

/-- C2 witness: the amended statement evaluated on an enabled storage-mirroring
logger. -/
theorem c2_witness :
    (Logger.clearLogs s2Ex envEx).storage =
      if s2Ex.enabled = true then some [Logger.entryOf envEx "info" "Logs cleared" none]
      else none :=
  c2_clear_storage_amended s2Ex envEx (by decide) rfl (by decide)

/-- C3: with `enabled = false`, no public logging call (any method, message,
payload) changes the buffer, the persistent storage, or the console
transcript. -/
theorem c3_disabled_logging_noop (s : Sys) (c : LogCall) (hen : s.enabled = false) :
    (callLog s c).logs = s.logs ∧ (callLog s c).storage = s.storage ∧
      (callLog s c).console = s.console := by
  rw [Logger.callLog_eq, Logger._log_of_disabled _ _ _ _ _ hen]
  exact ⟨rfl, rfl, rfl⟩

/-- C3 witness: a disabled logger's `info` call leaves buffer, storage and
console untouched. -/
theorem c3_witness :
    (callLog sDis ⟨Method.info, envEx, "hello", some "payload"⟩).logs = sDis.logs ∧
      (callLog sDis ⟨Method.info, envEx, "hello", some "payload"⟩).storage = sDis.storage ∧
      (callLog sDis ⟨Method.info, envEx, "hello", some "payload"⟩).console = sDis.console :=
  c3_disabled_logging_noop sDis ⟨Method.info, envEx, "hello", some "payload"⟩ (by decide)

/-- C4 counterexample: `endPerformance` tests `this.performanceMarks[label]`
for truthiness, so a mark started at clock reading `0` (a legal
`performance.now()` value, and JS-falsy) is treated as absent:
`startPerformance("x")` at reading `0` followed by `endPerformance("x")` at
reading `5` returns no duration and leaves the mark in place — refuting the
claim as stated. -/
theorem c4_counterexample :
    (Logger.endPerformance (Logger.startPerformance s4Ex envEx 0 "x") envEx 5 "x").2 = none ∧
      getMark (Logger.endPerformance (Logger.startPerformance s4Ex envEx 0 "x") envEx 5
          "x").1.performanceMarks "x" = some 0 := by
  decide

/-- C4 (amended): provided the recorded start reading is nonzero (i.e. JS-truthy;
the code's `if (this.performanceMarks[label])` check), `startPerformance(x)`
followed by `endPerformance(x)` returns the elapsed duration (which is `≥ 0`
under clock monotonicity) and removes `x` from the pending marks; and
`startPerformance` on any state stores the given reading under the label
(last-start-wins). -/
theorem c4_perf_roundtrip_amended (s : Sys) (env1 env2 : Env) (label : String)
    (t1 t2 : Int) (ht : t1 ≠ 0) (hmono : t1 ≤ t2) :
    (Logger.endPerformance (Logger.startPerformance s env1 t1 label) env2 t2 label).2 =
        some (t2 - t1) ∧
      0 ≤ t2 - t1 ∧
      getMark (Logger.endPerformance (Logger.startPerformance s env1 t1 label) env2 t2
          label).1.performanceMarks label = none ∧
      ∀ (s' : Sys) (env' : Env) (t : Int),
        getMark (Logger.startPerformance s' env' t label).performanceMarks label = some t := by
  have hget : getMark (Logger.startPerformance s env1 t1 label).performanceMarks label =
      some t1 := by
    rw [Logger.startPerformance_marks]
    exact Logger.getMark_setMark_self _ _ _
  have hend := Logger.endPerformance_spec (Logger.startPerformance s env1 t1 label) env2 t2
    label t1 hget ht
  refine ⟨?_, by omega, ?_, ?_⟩
  · rw [hend]
  · rw [hend]
    exact Logger.getMark_delMark_self _ _
  · intro s' env' t
    rw [Logger.startPerformance_marks]
    exact Logger.getMark_setMark_self _ _ _

/-- C4 witness: start at reading `2`, end at reading `5`: duration `3`, mark
removed. -/
theorem c4_witness :
    (Logger.endPerformance (Logger.startPerformance s4Ex envEx 2 "x") envEx 5 "x").2 =
        some ((5 : Int) - 2) ∧
      getMark (Logger.endPerformance (Logger.startPerformance s4Ex envEx 2 "x") envEx 5
          "x").1.performanceMarks "x" = none := by
  have h := c4_perf_roundtrip_amended s4Ex envEx envEx "x" 2 5 (by decide) (by decide)
  exact ⟨h.1, h.2.2.1⟩

/-- C5: `endPerformance` on a label not present in the mark mapping returns no
value and leaves the whole state unchanged (silent no-op). -/
theorem c5_end_missing_noop (s : Sys) (env : Env) (now : Int) (label : String)
    (h : getMark s.performanceMarks label = none) :
    Logger.endPerformance s env now label = (s, none) := by
  apply Logger.endPerformance_of_falsy
  rw [h]
  rfl

/-- C5 witness: `endPerformance("missing")` on a fresh logger is the identity
and returns `none`. -/
theorem c5_witness : Logger.endPerformance s4Ex envEx 5 "missing" = (s4Ex, none) :=
  c5_end_missing_noop s4Ex envEx 5 "missing" rfl

/-- C6: after any `clearLogs()` the buffer holds at most one entry; when the
logger is enabled (with the constructor-guaranteed `maxLogs ≥ 1`), the sole
entry is the info-level clear notice appended after the wipe. -/
theorem c6_clear_buffer_small (s : Sys) (env : Env) :
    (Logger.clearLogs s env).logs.length ≤ 1 ∧
      (s.enabled = true → 1 ≤ s.maxLogs →
        (Logger.clearLogs s env).logs = [Logger.entryOf env "info" "Logs cleared" none]) := by
  constructor
  · rw [Logger.clearLogs_logs]
    split
    · unfold Logger.evict
      split <;> simp
    · simp
  · intro he hcap
    rw [Logger.clearLogs_logs, if_pos he]
    unfold Logger.evict
    have hone : ¬ ([Logger.entryOf env "info" "Logs cleared" none].length > s.maxLogs) := by
      simp
      omega
    rw [if_neg hone]

/-- C6 witness: clearing an enabled logger leaves exactly the clear notice. -/
theorem c6_witness :
    (Logger.clearLogs s2Ex envEx).logs = [Logger.entryOf envEx "info" "Logs cleared" none] :=
  (c6_clear_buffer_small s2Ex envEx).2 (by decide) (by decide)

/-- C7: the buffer-length bound is an invariant of every constructed logger
under every sequence of public operations (logging calls, start/endPerformance,
clearLogs, exportLogs); and when an enabled append would exceed the capacity,
the oldest entry is evicted first. -/
theorem c7_buffer_bound_invariant (opts : Options) (w : Option (List LogEntry))
    (cons : List ConsoleLine) (ops : List Op) :
    (runOps (Logger.mk opts w cons) ops).logs.length ≤ (Logger.mk opts w cons).maxLogs ∧
      (∀ (s : Sys) (env : Env) (lvl msg : String) (d : Option String),
        s.enabled = true → s.logs.length = s.maxLogs → 1 ≤ s.maxLogs →
        (Logger._log s env lvl msg d).logs =
          s.logs.drop 1 ++ [Logger.entryOf env lvl msg d]) := by
  constructor
  · have h0 : (Logger.mk opts w cons).logs.length ≤ (Logger.mk opts w cons).maxLogs := by
      simp [Logger.mk]
    obtain ⟨h1, h2⟩ := Logger.runOps_inv ops (Logger.mk opts w cons) h0
    rw [h2] at h1
    exact h1
  · intro s env lvl msg d he hfull hcap
    rw [Logger._log_logs_of_enabled s env lvl msg d he]
    unfold Logger.evict
    have hgt : (s.logs ++ [Logger.entryOf env lvl msg d]).length > s.maxLogs := by
      simp
      omega
    rw [if_pos hgt, List.drop_append_of_le_length (by omega)]

/-- C7 witness: a mixed operation sequence on a capacity-2 logger stays within
bound, and an append to a full capacity-2 buffer evicts the oldest entry. -/
theorem c7_witness :
    (runOps (Logger.mk opts7 none []) ops7).logs.length ≤ (Logger.mk opts7 none []).maxLogs ∧
      (Logger._log sFull envEx "info" "m3" none).logs =
        sFull.logs.drop 1 ++ [Logger.entryOf envEx "info" "m3" none] := by
  have h := c7_buffer_bound_invariant opts7 none ([] : List ConsoleLine) ops7
  exact ⟨h.1, h.2 sFull envEx "info" "m3" none (by decide) (by decide) (by decide)⟩

/-- C8: when the storage write throws during an enabled mirrored logging call,
the buffer ends up exactly as on a successful write, the stored value is left
as it was, the failure surfaces only as a console warning, and the entry
appended by the call is still the buffer's last element; `_log` returns
normally (it is a total function — the `catch` confines the failure). -/
theorem c8_storage_failure_contained (s : Sys) (env : Env) (lvl msg : String)
    (d : Option String) (e : String) (hen : s.enabled = true) (hst : s.logToStorage = true)
    (herr : env.storageError = some e) (hcap : 1 ≤ s.maxLogs) :
    (Logger._log s env lvl msg d).logs =
        (Logger._log s { env with storageError := none } lvl msg d).logs ∧
      (Logger._log s env lvl msg d).storage = s.storage ∧
      ConsoleLine.warnLine "Failed to save logs to storage:" e ∈
        (Logger._log s env lvl msg d).console ∧
      (Logger._log s env lvl msg d).logs.getLast? = some (Logger.entryOf env lvl msg d) := by
  refine ⟨?_, ?_, ?_, ?_⟩
  · rw [Logger._log_logs_of_enabled s env lvl msg d hen,
      Logger._log_logs_of_enabled s { env with storageError := none } lvl msg d hen]
    rfl
  · simp [Logger._log, hen, hst, Logger.setItemResult, herr]
  · simp [Logger._log, hen, hst, Logger.setItemResult, herr]
  · rw [Logger._log_logs_of_enabled s env lvl msg d hen]
    unfold Logger.evict
    split
    · next hgt =>
      have hlen : 1 ≤ s.logs.length := by
        simp at hgt
        omega
      rw [List.drop_append_of_le_length hlen]
      exact List.getLast?_concat _
    · exact List.getLast?_concat _

/-- C8 witness: a quota-style `setItem` failure on an enabled storage-mirroring
logger, contained as the claim (amended hypotheses instantiated) states. -/
theorem c8_witness :
    (Logger._log s2Ex envFail "info" "m" none).logs =
        (Logger._log s2Ex { envFail with storageError := none } "info" "m" none).logs ∧
      (Logger._log s2Ex envFail "info" "m" none).storage = s2Ex.storage ∧
      ConsoleLine.warnLine "Failed to save logs to storage:" "QuotaExceededError" ∈
        (Logger._log s2Ex envFail "info" "m" none).console ∧
      (Logger._log s2Ex envFail "info" "m" none).logs.getLast? =
        some (Logger.entryOf envFail "info" "m" none) :=
  c8_storage_failure_contained s2Ex envFail "info" "m" none "QuotaExceededError"
    (by decide) (by decide) rfl (by decide)

/-- C9: a falsy `maxLogs` option (`0` or absent) falls back to the default
capacity 100 in the constructor. -/
theorem c9_maxlogs_falsy_default (opts : Options) (w : Option (List LogEntry))
    (cons : List ConsoleLine) (h : opts.maxLogs = some 0 ∨ opts.maxLogs = none) :
    (Logger.mk opts w cons).maxLogs = 100 := by
  rcases h with h | h <;> simp [Logger.mk, jsOrNat, h]

/-- C9 witness: `new Logger({ maxLogs: 0 })` has capacity 100. -/
theorem c9_witness : (Logger.mk { maxLogs := some 0 } none []).maxLogs = 100 :=
  c9_maxlogs_falsy_default { maxLogs := some 0 } none [] (Or.inl rfl)

/-- C10 counterexample: even with `enabled = false` the mark is recorded, but a
mark recorded at clock reading `0` is JS-falsy, so the subsequent
`endPerformance` returns no duration and does not remove it — refuting the
claim's universal "still computes and returns the elapsed duration and removes
the mark". -/
theorem c10_counterexample :
    (Logger.endPerformance (Logger.startPerformance sDis envEx 0 "y") envEx 7 "y").2 = none ∧
      getMark (Logger.endPerformance (Logger.startPerformance sDis envEx 0 "y") envEx 7
          "y").1.performanceMarks "y" = some 0 := by
  decide

/-- C10 (amended): with `enabled = false`, `startPerformance` still records the
mark and leaves the buffer unchanged, and — provided the recorded reading is
nonzero (JS-truthy) — the subsequent `endPerformance` still returns the elapsed
duration and removes the mark, again without touching the buffer: the flag
suppresses only the log entries. -/
theorem c10_disabled_perf_amended (s : Sys) (env1 env2 : Env) (label : String)
    (t1 t2 : Int) (hen : s.enabled = false) (ht : t1 ≠ 0) :
    getMark (Logger.startPerformance s env1 t1 label).performanceMarks label = some t1 ∧
      (Logger.startPerformance s env1 t1 label).logs = s.logs ∧
      (Logger.endPerformance (Logger.startPerformance s env1 t1 label) env2 t2 label).2 =
        some (t2 - t1) ∧
      getMark (Logger.endPerformance (Logger.startPerformance s env1 t1 label) env2 t2
          label).1.performanceMarks label = none ∧
      (Logger.endPerformance (Logger.startPerformance s env1 t1 label) env2 t2 label).1.logs =
        s.logs := by
  have hget : getMark (Logger.startPerformance s env1 t1 label).performanceMarks label =
      some t1 := by
    rw [Logger.startPerformance_marks]
    exact Logger.getMark_setMark_self _ _ _
  have hend := Logger.endPerformance_spec (Logger.startPerformance s env1 t1 label) env2 t2
    label t1 hget ht
  have hsl : (Logger.startPerformance s env1 t1 label).logs = s.logs := by
    rw [Logger.startPerformance_of_disabled s env1 t1 label hen]
  have hen' : (Logger.startPerformance s env1 t1 label).enabled = false := by
    rw [Logger.startPerformance_of_disabled s env1 t1 label hen]
    exact hen
  refine ⟨hget, hsl, ?_, ?_, ?_⟩
  · rw [hend]
  · rw [hend]
    exact Logger.getMark_delMark_self _ _
  · rw [hend]
    simp only [Logger.info]
    rw [Logger._log_of_disabled _ _ _ _ _ hen']
    exact hsl

/-- C10 witness: disabled logger, start at reading `3`, end at reading `7`. -/
theorem c10_witness :
    getMark (Logger.startPerformance sDis envEx 3 "y").performanceMarks "y" = some 3 ∧
      (Logger.startPerformance sDis envEx 3 "y").logs = sDis.logs ∧
      (Logger.endPerformance (Logger.startPerformance sDis envEx 3 "y") envEx 7 "y").2 =
        some ((7 : Int) - 3) ∧
      getMark (Logger.endPerformance (Logger.startPerformance sDis envEx 3 "y") envEx 7
          "y").1.performanceMarks "y" = none ∧
      (Logger.endPerformance (Logger.startPerformance sDis envEx 3 "y") envEx 7 "y").1.logs =
        sDis.logs :=
  c10_disabled_perf_amended sDis envEx envEx "y" 3 7 (by decide) (by decide)

end BDWS
